import Mathlib

/-!
Verification development for the `ts-scripts` command dispatcher.

The development shallowly embeds the two module revisions that the claims
refer to:

* namespace `Vitest` embeds `src/unnamed/part_001` (the vitest-era module:
  `build`, `lint`, `format`, `check`, `specs`, `getConfig`, `getEslintPaths`);
* namespace `Jest` embeds `src/src/index.ts` (the jest-era module:
  `extensionsFromConfig`, `eslintGlob`, `getConfig`, `get`, `main`).

Effectful handlers are embedded as pure functions from an `Oracle` (the exit
status the external tool would produce for a given spawn) to a pair of the
handler's outcome (`Except RunError Unit`) and the ordered list of subprocess
spawns it performed.  JavaScript strings are Lean `String`s; the few string
operations the code uses (`startsWith`, `endsWith`, `replace` of a trailing
suffix, `split` on `/`) are modelled on the underlying character lists so
that every definition is executable and kernel-reducible.
-/

/-- Boolean test that the first list is a prefix of the second
(structural recursion, used to model both JS `String.prototype.startsWith`
and the "equal to or nested under" relation on path components). -/
def startsWithList {α : Type} [DecidableEq α] : List α → List α → Bool
  | [], _ => true
  | _ :: _, [] => false
  | a :: as, b :: bs => if a = b then startsWithList as bs else false

/-- Model of JS `s.startsWith(p)`. -/
def strStartsWith (s p : String) : Bool :=
  startsWithList p.data s.data

/-- Model of JS `s.endsWith(p)`. -/
def strEndsWith (s p : String) : Bool :=
  startsWithList p.data.reverse s.data.reverse

/-- Drop the last `n` characters of a string. -/
def strDropRight (s : String) (n : Nat) : String :=
  String.mk (s.data.take (s.data.length - n))

/-- Split a character list at `/` separators, skipping empty components
(helper for `splitPath`); `acc` holds the current component reversed. -/
def splitComps : List Char → List Char → List String
  | [], acc => if acc.isEmpty then [] else [String.mk acc.reverse]
  | c :: rest, acc =>
    if c = '/' then
      if acc.isEmpty then splitComps rest [] else String.mk acc.reverse :: splitComps rest []
    else splitComps rest (c :: acc)

/-- Component list of a POSIX path string: the nonempty `/`-separated parts. -/
def splitPath (s : String) : List String :=
  splitComps s.data []

/-- Model of `posix.join` for the two-argument uses in the source
(a directory joined with a glob suffix). -/
def posixJoin (a b : String) : String :=
  if a = ("") then b else a ++ ("/") ++ b

/-- Normalisation of the component list of an absolute path: `.` is dropped
and `..` removes the preceding component (at the root it is dropped), as
`path.resolve` does.  `acc` is the already-normalised prefix. -/
def normAbsAux : List String → List String → List String
  | acc, [] => acc
  | acc, c :: rest =>
    if c = (".") then normAbsAux acc rest
    else if c = ("..") then normAbsAux acc.dropLast rest
    else normAbsAux (acc ++ [c]) rest

/-- Normalised component list of an absolute path. -/
def normAbs (l : List String) : List String :=
  normAbsAux [] l

/-- Normalised component list of an absolute path string, as produced by
`path.resolve` on it. -/
def absComps (s : String) : List String :=
  normAbs (splitPath s)

/-- Model of `path.resolve(dir, x)` (with `dir` an absolute path), returning
the component list of the resulting absolute path. -/
def resolveComps (dir x : String) : List String :=
  if strStartsWith x ("/") then absComps x
  else normAbs (splitPath dir ++ splitPath x)

/-- Strip the longest common prefix from two component lists; returns the
two remainders (helper for `path.relative`). -/
def stripCommon : List String → List String → List String × List String
  | [], t => ([], t)
  | f, [] => (f, [])
  | a :: as, b :: bs =>
    if a = b then stripCommon as bs else (a :: as, b :: bs)

/-- Component list of `path.relative(f, t)` for absolute component lists
`f` and `t`: one `..` per leftover component of `f`, then the leftover
components of `t`. -/
def relComps (f t : List String) : List String :=
  let p := stripCommon f t
  p.fst.map (fun _ => ("..")) ++ p.snd

/-- Model of `relative(f, t).startsWith("..")`: the joined relative path
string starts with `..` exactly when its first component does (components
are nonempty, so the first two characters of the joined string are the
first two characters of the first component). -/
def relStartsDotDot (f t : List String) : Bool :=
  match relComps f t with
  | [] => false
  | c :: _ => strStartsWith c ("..")

/-- A resolved path component is traversal-free when it does not begin with
the two characters of the parent-traversal token `..`.  The code's
`relative(...).startsWith("..")` test fires on any leading component that
merely begins with those characters — including a literal directory name
such as `..w` — so only over traversal-free components does that test mean
"not nested under". -/
def noTraversalComp (c : String) : Bool :=
  !(strStartsWith c (".."))

/-- Scalar-or-array configuration value (the `zod` `union([string, array(string)])`). -/
inductive StrOrList : Type where
  | str (s : String)
  | list (l : List String)
deriving DecidableEq, Repr

/-- Model of the source's `arrayify`: a lone value becomes a singleton array. -/
def arrayify : StrOrList → List String
  | StrOrList.str s => [s]
  | StrOrList.list l => l

/-- Scalar-or-array of arbitrary schema objects (the `arrayifySchema` wrapper
around the test-entry object schema). -/
inductive OneOrMany (α : Type) : Type where
  | one (a : α)
  | many (l : List α)
deriving DecidableEq, Repr

/-- `arrayify` at schema-object type. -/
def arrayifyMany {α : Type} : OneOrMany α → List α
  | OneOrMany.one a => [a]
  | OneOrMany.many l => l

/-- One subprocess spawn performed by a handler: the tool's resolved script
path, its argument vector, and the display name passed to `run`
(the spawned command is `node path ...argv`; stdio/cwd/env forwarding does
not bear on the claims and is omitted). -/
structure SpawnCall where
  path : String
  argv : List String
  name : String
deriving DecidableEq, Repr

/-- Errors a handler can surface: a thrown `TypeError` or the rejection of
`run` when the subprocess exits non-zero (`"<name>" exited with <code>`). -/
inductive RunError : Type where
  | typeError (msg : String)
  | processError (name : String)
deriving DecidableEq, Repr

/-- Exit behaviour of the external tools: `true` means the spawned process
exits with code `0`. -/
abbrev Oracle := SpawnCall → Bool

/-- Result of running a handler: its outcome and the ordered list of
subprocess spawns it performed (also populated on the error path, up to and
including the failing spawn). -/
abbrev Res (α : Type) := Except RunError α × List SpawnCall

/-- Model of `run`: spawn one tool, record the spawn, succeed or fail
according to the oracle. -/
def runTool (orc : Oracle) (path : String) (argv : List String) (name : String) : Res Unit :=
  let c : SpawnCall := { path := path, argv := argv, name := name }
  (if orc c then Except.ok () else Except.error (RunError.processError name), [c])

/-- Sequential composition with short-circuit: `await a; await b` — `b` only
runs when `a` succeeded, and the traces concatenate. -/
def andThen {β : Type} (a : Res Unit) (b : Unit → Res β) : Res β :=
  match a with
  | (Except.error e, t) => (Except.error e, t)
  | (Except.ok _, t) =>
    let r := b ()
    (r.fst, t ++ r.snd)

/-- Sequential `for … of` loop over a list, awaiting each step. -/
def forEachSeq {σ : Type} (f : σ → Res Unit) : List σ → Res Unit
  | [] => (Except.ok (), [])
  | x :: xs => andThen (f x) (fun _ => forEachSeq f xs)

/-- One fragment passed to the source's variadic `args` builder: a string,
a string array, or a skipped falsy value. -/
inductive Frag : Type where
  | str (s : String)
  | strs (l : List String)
  | skip
deriving DecidableEq, Repr

/-- Model of the source's `args` composer: arrays flatten in order, strings
contribute themselves, falsy fragments vanish. -/
def args : List Frag → List String
  | [] => []
  | Frag.str s :: rest => s :: args rest
  | Frag.strs l :: rest => l ++ args rest
  | Frag.skip :: rest => args rest

/-- The `cond && "--flag"` idiom: include the flag when the boolean holds. -/
def flagIf (b : Bool) (s : String) : Frag :=
  if b then Frag.str s else Frag.skip

/-- The `value && "--flag"` idiom on an optional string: include the flag
when the value is present and truthy (JS: the empty string is falsy). -/
def strIf (o : Option String) (s : String) : Frag :=
  match o with
  | some v => if v = ("") then Frag.skip else Frag.str s
  | none => Frag.skip

/-- The `value && ["--flag", value]` idiom: include the flag/value pair when
the value is present and truthy. -/
def optPair (o : Option String) (flag : String) : Frag :=
  match o with
  | some v => if v = ("") then Frag.skip else Frag.strs [flag, v]
  | none => Frag.skip

/-- JS truthiness of an optional string. -/
def truthyS (o : Option String) : Bool :=
  match o with
  | some v => v != ("")
  | none => false

namespace Vitest

/-!
Embedding of `src/unnamed/part_001` (the vitest-era module).  The `PATHS`
constants stand for the module paths that `resolvePath` locates inside
`node_modules`; a handler is a function of the parsed flags (the result of
the `arg` destructuring at its head), the resolved `Config`, and the
`Oracle`.
-/

/-- Resolved tool script paths (`PATHS` in the source; `resolvePath` only
locates these under `node_modules`, so the module path itself identifies
the tool). -/
def PATHS_prettier : String := ("prettier/bin-prettier.js")

/-- Resolved path of the prettier package plugin. -/
def PATHS_prettierPluginPackage : String := ("prettier-plugin-package/lib/index.js")

/-- Resolved path of the eslint CLI. -/
def PATHS_eslint : String := ("eslint/bin/eslint.js")

/-- Resolved path of the rimraf CLI. -/
def PATHS_rimraf : String := ("rimraf/bin.js")

/-- Resolved path of the TypeScript compiler CLI. -/
def PATHS_typescript : String := ("typescript/bin/tsc")

/-- Resolved path of the vitest CLI. -/
def PATHS_vitest : String := ("vitest/vitest.mjs")

/-- Prettier supported glob files (`PRETTIER_GLOB`). -/
def PRETTIER_GLOB : String := ("*.\x7bjs,jsx,ts,tsx,cjs,mjs,json,css,md,yml,yaml\x7d")

/-- ESLint supported glob files (`ESLINT_GLOB`). -/
def ESLINT_GLOB : String := ("*.\x7bjs,jsx,ts,tsx\x7d")

/-- The bundled configuration directory (`resolve(fileDirname, "../configs")`). -/
def configDir : String := ("../configs")

/-- Test configuration object (`Test`). -/
structure Test where
  dir : Option String := none
  config : Option String := none
deriving DecidableEq, Repr

/-- Resolved configuration object (`Config`). -/
structure Config where
  debug : Bool := false
  dir : String := ("/root")
  src : List String := [("src")]
  ignore : List String := []
  dist : List String := [("dist")]
  project : List String := [("tsconfig.json")]
  checkProject : List String := [("tsconfig.json")]
  test : List Test := [{}]
deriving DecidableEq, Repr

/-- The `x.replace(/\.json$/, ".tsbuildinfo")` companion-path computation in
`build`'s clean step: only a trailing `.json` suffix is rewritten. -/
def tsbuildinfoPath (x : String) : String :=
  if strEndsWith x (".json") then strDropRight x 5 ++ (".tsbuildinfo") else x

/-- The `build` handler; `noClean` is the parsed `--no-clean` flag. -/
def build (orc : Oracle) (noClean : Bool) (config : Config) : Res Unit :=
  let cleanStep : Res Unit :=
    if noClean then (Except.ok (), [])
    else
      let paths := config.dist ++ config.project.map tsbuildinfoPath
      if paths.isEmpty then (Except.ok (), [])
      else runTool orc PATHS_rimraf paths ("rimraf")
  andThen cleanStep (fun _ =>
    if config.project.isEmpty then (Except.ok (), [])
    else runTool orc PATHS_typescript (("--build") :: config.project) ("tsc --build"))

/-- Resolve ESLint paths for linting (`getEslintPaths`): explicit paths are
optionally narrowed to those under a resolved source directory, no paths
means the derived glob over every source dir.  Candidates are modelled as
absolute path strings: `path.relative` would resolve a relative candidate
against the ambient process cwd, which is outside this embedding. -/
def getEslintPaths (paths : List String) (filter : Bool) (config : Config) : List String :=
  if paths.isEmpty then
    config.src.map (fun x => posixJoin x (("**/") ++ ESLINT_GLOB))
  else if filter then
    let fullSrc := config.src.map (fun x => resolveComps config.dir x)
    paths.filter (fun path => fullSrc.any (fun src => !(relStartsDotDot src (absComps path))))
  else paths

/-- The expected ESLint config path (`getEslintConfig`). -/
def getEslintConfig : String := posixJoin configDir ("eslint.js")

/-- Parsed flags of the `lint` handler. -/
structure LintArgs where
  paths : List String := []
  check : Bool := false
  filterPaths : Bool := false
deriving DecidableEq, Repr

/-- The `lint` handler. -/
def lint (orc : Oracle) (a : LintArgs) (config : Config) : Res Unit :=
  let eslintPaths := getEslintPaths a.paths a.filterPaths config
  runTool orc PATHS_eslint
    (args [flagIf (!a.check) ("--fix"),
           Frag.strs [("--config"), getEslintConfig],
           Frag.strs (config.ignore.flatMap (fun ignore => [("--ignore-pattern"), ignore])),
           Frag.strs eslintPaths])
    ("eslint")

/-- Parsed flags of the `format` handler. -/
structure FormatArgs where
  paths : List String := []
  check : Bool := false
deriving DecidableEq, Repr

/-- The `format` handler. -/
def format (orc : Oracle) (a : FormatArgs) (config : Config) : Res Unit :=
  let paths0 :=
    if a.paths.isEmpty then
      PRETTIER_GLOB :: config.src.map (fun src => posixJoin src (("**/") ++ PRETTIER_GLOB))
    else a.paths
  let paths := paths0 ++ config.ignore.map (fun ignore => ("!") ++ ignore)
  runTool orc PATHS_prettier
    (args [Frag.strs [("--plugin"), PATHS_prettierPluginPackage],
           flagIf (!a.check) ("--write"),
           flagIf a.check ("--check"),
           Frag.strs paths])
    ("prettier")

/-- One `tsc --noEmit --project <project>` step of `check`. -/
def tscNoEmit (orc : Oracle) (project : String) : Res Unit :=
  runTool orc PATHS_typescript [("--noEmit"), ("--project"), project]
    (("tsc --noEmit --project ") ++ project)

/-- The `check` handler: `lint --check`, then `format --check`, then one
type-check per `checkProject` entry, strictly in sequence. -/
def check (orc : Oracle) (config : Config) : Res Unit :=
  andThen (lint orc { check := true } config) (fun _ =>
  andThen (format orc { check := true } config) (fun _ =>
  forEachSeq (tscNoEmit orc) config.checkProject))

/-- Parsed flags of the `specs` handler (`--watch` is declared as `Number`
in the `arg` spec, so its parsed value is a numeric index or absent). -/
structure SpecsArgs where
  paths : List String := []
  changed : Bool := false
  coverage : Bool := false
  since : Option String := none
  testPattern : Option String := none
  ui : Bool := false
  update : Bool := false
  watch : Option Nat := none
deriving DecidableEq, Repr

/-- JS truthiness of the parsed `--watch` value: `undefined` and `0` are
falsy, any other index is truthy. -/
def watchTruthy : Option Nat → Bool
  | none => false
  | some n => n != 0

/-- The `defaultArgs` vector composed at the head of `specs` (note that the
`--test-pattern` value contributes only the bare `--testNamePattern` flag:
`testPattern && "--testNamePattern"`). -/
def specsDefaultArgs (a : SpecsArgs) : List String :=
  args [Frag.str ("--passWithNoTests"),
        flagIf a.coverage ("--coverage"),
        flagIf a.update ("--update"),
        flagIf (a.changed && !(truthyS a.since)) ("--changed"),
        strIf a.testPattern ("--testNamePattern"),
        optPair a.since ("--changed"),
        flagIf a.ui ("--ui"),
        Frag.strs a.paths]

/-- The `specs` handler: when the parsed `--watch` value is truthy, run the
selected `TestConfig` once in watch mode (throwing `TypeError` when the
index has no entry); otherwise run every `TestConfig` in sequence. -/
def specs (orc : Oracle) (a : SpecsArgs) (config : Config) : Res Unit :=
  if watchTruthy a.watch then
    match config.test.get? (a.watch.getD 0) with
    | none =>
      (Except.error (RunError.typeError (("No test config at: ") ++ toString (a.watch.getD 0))), [])
    | some t =>
      runTool orc PATHS_vitest
        (args [Frag.str ("watch"),
               optPair t.config ("--config"),
               optPair t.dir ("--dir"),
               Frag.strs (specsDefaultArgs a)])
        ("vitest watch")
  else
    forEachSeq (fun t =>
      runTool orc PATHS_vitest
        (args [Frag.str ("run"),
               optPair t.config ("--config"),
               optPair t.dir ("--dir"),
               Frag.strs (specsDefaultArgs a)])
        ("vitest run")) config.test

/-- Raw shape of one entry of the manifest's `test` key as accepted by the
schema (`object({dir, config, project})`, all optional). -/
structure RawTest where
  dir : Option String := none
  config : Option String := none
  project : Option String := none
deriving DecidableEq, Repr

/-- Raw `ts-scripts` manifest section.  The `checkProject` field is listed
here because manifests may carry it, but `configSchema` has no such key, so
parsing drops it (zod strips unknown keys). -/
structure RawConfig where
  debug : Option Bool := none
  src : Option StrOrList := none
  ignore : Option StrOrList := none
  dist : Option StrOrList := none
  project : Option StrOrList := none
  checkProject : Option StrOrList := none
  test : Option (OneOrMany RawTest) := none
deriving DecidableEq, Repr

/-- The shape produced by `configSchema.parse`: exactly the keys declared in
`configSchema` (`debug`, `src`, `ignore`, `dist`, `project`, `test`). -/
structure ParsedConfig where
  debug : Option Bool := none
  src : Option StrOrList := none
  ignore : Option StrOrList := none
  dist : Option StrOrList := none
  project : Option StrOrList := none
  test : Option (OneOrMany RawTest) := none
deriving DecidableEq, Repr

/-- Model of `configSchema.parse`: keeps the declared keys, drops the rest
(in particular `checkProject`). -/
def configSchemaParse (raw : RawConfig) : ParsedConfig :=
  { debug := raw.debug, src := raw.src, ignore := raw.ignore,
    dist := raw.dist, project := raw.project, test := raw.test }

/-- Model of `getConfig`: resolve defaults and normalise scalars to arrays;
`dir` stands for `dirname(packageJsonPath(config) ?? cwd)`, which is
resolved outside the embedded logic.  Note both `project` and
`checkProject` are resolved from `schema.project`. -/
def getConfig (raw : RawConfig) (dir : String) : Config :=
  let schema := configSchemaParse raw
  { debug := schema.debug.getD false
    dir := dir
    src := arrayify (schema.src.getD (StrOrList.str ("src")))
    ignore := arrayify (schema.ignore.getD (StrOrList.list []))
    dist := arrayify (schema.dist.getD (StrOrList.str ("dist")))
    project := arrayify (schema.project.getD (StrOrList.str ("tsconfig.json")))
    checkProject := arrayify (schema.project.getD (StrOrList.str ("tsconfig.json")))
    test := (arrayifyMany (schema.test.getD (OneOrMany.one {}))).map
      (fun testSchema => { dir := testSchema.dir, config := testSchema.config }) }

end Vitest

namespace Jest

/-!
Embedding of `src/src/index.ts` (the jest-era module): the language-variant
extension/glob derivation, the configuration resolver, and the command
dispatcher with its own-property registry lookup.
-/

/-- Test configuration object (`Test`). -/
structure Test where
  name : Option String := none
  dir : Option (List String) := none
  env : String := ("node")
  project : String := ("tsconfig.json")
deriving DecidableEq, Repr

/-- Resolved configuration object (`Config`). -/
structure Config where
  debug : Bool := false
  js : Bool := false
  react : Bool := false
  dir : String := ("/root")
  src : List String := [("src")]
  dist : List String := [("dist")]
  project : List String := [("tsconfig.json")]
  test : List Test := [{}]
deriving DecidableEq, Repr

/-- Model of `Array.prototype.join(",")`. -/
def joinComma : List String → String
  | [] => ("")
  | [x] => x
  | x :: xs => x ++ (",") ++ joinComma xs

/-- Build the list of supported script extensions (`extensionsFromConfig`):
`ts` always, `js` when untyped scripts are enabled, `tsx` when component
syntax is enabled, `jsx` when both are. -/
def extensionsFromConfig (config : Config) : List String :=
  let exts := [("ts")]
  let exts := if config.js then exts ++ [("js")] else exts
  let exts := if config.react then exts ++ [("tsx")] else exts
  let exts := if config.js && config.react then exts ++ [("jsx")] else exts
  exts

/-- ESLint supported glob (`eslintGlob`): brace glob over the derived
extensions, or `*.ext` when only one extension is enabled. -/
def eslintGlob (config : Config) : String :=
  let exts := extensionsFromConfig config
  if exts.length > 1 then ("*.\x7b") ++ joinComma exts ++ ("\x7d")
  else ("*.") ++ exts.headD ("")

/-- Raw shape of one entry of the manifest's `test` key
(`object({name, env, dir, project})`, all optional, `dir` scalar-or-array). -/
structure RawTest where
  name : Option String := none
  env : Option String := none
  dir : Option StrOrList := none
  project : Option String := none
deriving DecidableEq, Repr

/-- Raw `ts-scripts` manifest section as validated by this revision's
`configSchema` (`debug`, `js`, `react`, `src`, `dist`, `project`, `test`). -/
structure RawConfig where
  debug : Option Bool := none
  js : Option Bool := none
  react : Option Bool := none
  src : Option StrOrList := none
  dist : Option StrOrList := none
  project : Option StrOrList := none
  test : Option (OneOrMany RawTest) := none
deriving DecidableEq, Repr

/-- JS truthiness of a scalar-or-array value: the empty string is falsy,
every array (even an empty one) is truthy. -/
def truthyStrOrList : StrOrList → Bool
  | StrOrList.str s => s != ("")
  | StrOrList.list _ => true

/-- Model of `getConfig`: resolve defaults and normalise scalars to arrays;
`dir` stands for `dirname(packageJsonPath(config) ?? cwd)`.  A test
entry's `dir` is the source's `testSchema.dir ? arrayify(testSchema.dir) :
undefined` — a truthiness test, so a present-but-falsy value (the empty
string) also yields `undefined`. -/
def getConfig (schema : RawConfig) (dir : String) : Config :=
  { debug := schema.debug.getD false
    js := schema.js.getD false
    react := schema.react.getD false
    dir := dir
    src := arrayify (schema.src.getD (StrOrList.str ("src")))
    dist := arrayify (schema.dist.getD (StrOrList.str ("dist")))
    project := arrayify (schema.project.getD (StrOrList.str ("tsconfig.json")))
    test := (arrayifyMany (schema.test.getD (OneOrMany.one {}))).map
      (fun testSchema =>
        { name := testSchema.name
          dir := match testSchema.dir with
            | some v => if truthyStrOrList v then some (arrayify v) else none
            | none => none
          env := testSchema.env.getD ("node")
          project := testSchema.project.getD ("tsconfig.json") }) }

/-- The dispatch targets of the `scripts` registry. -/
inductive Script : Type where
  | build | preCommit | format | specs | test | lint | check | install
deriving DecidableEq, Repr

/-- The `scripts` registry: a plain object literal whose own keys are
exactly the eight supported command names. -/
def scripts : List (String × Script) :=
  [(("build"), Script.build), (("pre-commit"), Script.preCommit),
   (("format"), Script.format), (("specs"), Script.specs),
   (("test"), Script.test), (("lint"), Script.lint),
   (("check"), Script.check), (("install"), Script.install)]

/-- Model of `get`: `Object.prototype.hasOwnProperty.call(obj, key) ?
obj[key] : undefined` — an own-property-only lookup, never consulting the
prototype chain. -/
def get (obj : List (String × Script)) (key : String) : Option Script :=
  if (obj.map Prod.fst).contains key then obj.lookup key else none

/-- Outcome of `main` truncated at dispatch: either the `TypeError` thrown
for an unknown command, or the selected script with its forwarded flags.
The boolean records whether `getConfig` was reached (the only side effect
before the handler call). -/
def main (argv : List String) : Except RunError (Script × List String) × Bool :=
  match argv with
  | [] =>
    (Except.error (RunError.typeError (("Script does not exist: ") ++ ("undefined"))), false)
  | command :: flags =>
    match get scripts command with
    | none => (Except.error (RunError.typeError (("Script does not exist: ") ++ command)), false)
    | some script => (Except.ok (script, flags), true)

end Jest

/-!
Helper lemmas about the sequencing combinators and the path model.
-/

/-- A failed first step short-circuits `andThen`, keeping its trace. -/
theorem andThen_error {β : Type} (a : Res Unit) (f : Unit → Res β) (e : RunError)
    (h : a.fst = Except.error e) : andThen a f = (Except.error e, a.snd) := by
  rcases a with ⟨r, t⟩
  simp only at h
  subst h
  rfl

/-- Every spawn of `andThen a f` comes from `a` or from `f`. -/
theorem andThen_snd_sub {β : Type} (a : Res Unit) (f : Unit → Res β) (c : SpawnCall)
    (hc : c ∈ (andThen a f).snd) : c ∈ a.snd ∨ c ∈ (f ()).snd := by
  rcases a with ⟨r, t⟩
  cases r with
  | error e => exact Or.inl hc
  | ok _ =>
    simp only [andThen, List.mem_append] at hc
    exact hc

/-- The first spawn of `andThen (runTool …) f` is the `runTool` spawn. -/
theorem andThen_runTool_head {β : Type} (orc : Oracle) (p : String) (v : List String)
    (n : String) (f : Unit → Res β) :
    (andThen (runTool orc p v n) f).snd.head? = some { path := p, argv := v, name := n } := by
  by_cases h : orc { path := p, argv := v, name := n } = true
  · simp [runTool, andThen, h]
  · simp only [Bool.not_eq_true] at h
    simp [runTool, andThen, h]

/-- `lint` spawns exactly one subprocess, the ESLint CLI. -/
theorem lint_spawns_eslint (orc : Oracle) (a : Vitest.LintArgs) (config : Vitest.Config) :
    ∀ c ∈ (Vitest.lint orc a config).snd, c.path = Vitest.PATHS_eslint := by
  intro c hc
  simp only [Vitest.lint, runTool, List.mem_singleton] at hc
  subst hc
  rfl

/-- `stripCommon` consumes all of the first list exactly when it is a
prefix of the second. -/
theorem stripCommon_fst_nil (f t : List String) :
    (stripCommon f t).fst = [] ↔ startsWithList f t = true := by
  induction f generalizing t with
  | nil => simp [stripCommon, startsWithList]
  | cons a as ih =>
    cases t with
    | nil => simp [stripCommon, startsWithList]
    | cons b bs =>
      by_cases hab : a = b
      · subst hab
        simpa [stripCommon, startsWithList] using ih bs
      · simp [stripCommon, startsWithList, hab]

/-- The second remainder of `stripCommon` only holds elements of the
second list. -/
theorem mem_stripCommon_snd (f t : List String) :
    ∀ c ∈ (stripCommon f t).snd, c ∈ t := by
  induction f generalizing t with
  | nil => simp [stripCommon]
  | cons a as ih =>
    cases t with
    | nil => simp [stripCommon]
    | cons b bs =>
      by_cases hab : a = b
      · subst hab
        intro c hc
        simp only [stripCommon, if_pos rfl] at hc
        exact List.mem_cons_of_mem _ (ih bs c hc)
      · intro c hc
        simp only [stripCommon, if_neg hab] at hc
        exact hc

/-- For a target all of whose components are traversal-free, the relative
path from `f` begins with a parent-traversal token exactly when `f` is not
a component-prefix of the target. -/
theorem relStartsDotDot_eq (f t : List String)
    (hclean : ∀ c ∈ t, noTraversalComp c = true) :
    relStartsDotDot f t = !(startsWithList f t) := by
  rw [relStartsDotDot, relComps]
  cases hfst : (stripCommon f t).fst with
  | nil =>
    have hpre : startsWithList f t = true := (stripCommon_fst_nil f t).mp hfst
    rw [hpre]
    simp only [List.map_nil, List.nil_append]
    cases hsnd : (stripCommon f t).snd with
    | nil => rfl
    | cons c cs =>
      have hc : c ∈ t := mem_stripCommon_snd f t c (by rw [hsnd]; exact List.mem_cons_self c cs)
      have hno := hclean c hc
      rw [noTraversalComp, Bool.not_eq_true'] at hno
      simpa using hno
  | cons a as =>
    have hpre : startsWithList f t = false := by
      rw [← Bool.not_eq_true, ← stripCommon_fst_nil, hfst]
      simp
    rw [hpre]
    simp only [List.map_cons, List.cons_append]
    rfl

/-!
Claim theorems.
-/

/-- C1 (amended): for a parsed `--watch` index `i ≥ 1` the `specs` handler
spawns exactly one test-runner subprocess — the vitest CLI in watch mode
with the selected entry's `--config`/`--dir` flags — when the test-config
list has an entry at `i`, and fails with the `TypeError` naming the index,
before spawning anything, when it has none.  (At index `0` the parsed
`--watch` value is falsy and the flag is ignored; see
`specs_watch_zero_runs_all`.) -/
theorem specs_watch_nonzero_selects_entry (orc : Oracle) (a : Vitest.SpecsArgs)
    (config : Vitest.Config) (i : Nat) (hw : a.watch = some i) (hi : i ≠ 0) :
    (∀ t, config.test.get? i = some t →
      (Vitest.specs orc a config).snd =
        [{ path := Vitest.PATHS_vitest,
           argv := args [Frag.str ("watch"), optPair t.config ("--config"),
                         optPair t.dir ("--dir"), Frag.strs (Vitest.specsDefaultArgs a)],
           name := ("vitest watch") }]) ∧
    (config.test.get? i = none →
      Vitest.specs orc a config =
        (Except.error (RunError.typeError (("No test config at: ") ++ toString i)), [])) := by
  have htruthy : Vitest.watchTruthy a.watch = true := by
    rw [hw]
    simp [Vitest.watchTruthy, hi]
  have hgd : a.watch.getD 0 = i := by rw [hw]; rfl
  constructor
  · intro t ht
    rw [List.get?_eq_getElem?] at ht
    simp [Vitest.specs, htruthy, hgd, ht, runTool]
  · intro ht
    rw [List.get?_eq_getElem?] at ht
    simp [Vitest.specs, htruthy, hgd, ht]

/-- Witness for `specs_watch_nonzero_selects_entry`: `specs --watch 2`
against a two-entry test-config list fails with the `TypeError` before
spawning anything. -/
theorem specs_watch_nonzero_selects_entry_witness :
    Vitest.specs (fun _ => true) { watch := some 2 } { test := [{}, {}] } =
      (Except.error (RunError.typeError (("No test config at: ") ++ toString 2)), []) :=
  (specs_watch_nonzero_selects_entry (fun _ => true) { watch := some 2 } { test := [{}, {}] } 2
    rfl (by decide)).2 rfl

/-- C1 (behaviour at the failing input): `specs --watch 0` against a
two-entry test-config list ignores the watch flag — the parsed index `0` is
falsy — and spawns one run-mode subprocess per entry instead of a single
watch-mode subprocess for entry `0`. -/
theorem specs_watch_zero_runs_all :
    ((Vitest.specs (fun _ => true) { watch := some 0 }
        { test := [{}, { dir := some ("other") }] }).snd.map SpawnCall.name =
      [("vitest run"), ("vitest run")]) ∧
    ((Vitest.specs (fun _ => true) { watch := some 0 }
        { test := [{}, { dir := some ("other") }] }).snd.all
        (fun c => !(c.argv.contains ("watch"))) = true) := by
  constructor
  · rfl
  · rfl

/-- C2 (amended): the resolver copies the build-project list into the
check-project list unconditionally — `checkProject` is resolved from
`schema.project`, and `configSchema` has no `checkProject` key — so no raw
manifest can make the two lists differ. -/
theorem getConfig_checkProject_eq_project (raw : Vitest.RawConfig) (dir : String) :
    (Vitest.getConfig raw dir).checkProject = (Vitest.getConfig raw dir).project := rfl

/-- C2 (counterexample): a manifest that sets `checkProject` to `b.json`
while `project` is `a.json` still resolves its check-project list to
`["a.json"]`, equal to the build-project list — the `checkProject` key is
dropped by the schema, not honored. -/
theorem getConfig_checkProject_key_ignored :
    ((Vitest.getConfig { project := some (StrOrList.str ("a.json")),
                         checkProject := some (StrOrList.str ("b.json")) } ("/p")).checkProject
       = [("a.json")]) ∧
    ((Vitest.getConfig { project := some (StrOrList.str ("a.json")),
                         checkProject := some (StrOrList.str ("b.json")) } ("/p")).project
       = [("a.json")]) := by
  constructor
  · rfl
  · rfl

/-- C3: with `--test-pattern foo` the `specs` handler composes, for its
single test-runner spawn, an argument vector that contains the bare
`--testNamePattern` flag but not the pattern value `foo` — the source's
`testPattern && "--testNamePattern"` fragment drops the value. -/
theorem specs_testPattern_value_dropped :
    ((Vitest.specs (fun _ => true) { testPattern := some ("foo") } { test := [{}] }).snd.map
        SpawnCall.argv =
      [[("run"), ("--passWithNoTests"), ("--testNamePattern")]]) ∧
    ((Vitest.specs (fun _ => true) { testPattern := some ("foo") } { test := [{}] }).snd.all
        (fun c => !(c.argv.contains ("foo"))) = true) := by
  constructor
  · rfl
  · rfl

/-- C4: resolving a manifest whose `ts-scripts` section is exactly
`{ "test": [{}] }` yields source dirs `["src"]`, dist dirs `["dist"]`,
build projects `["tsconfig.json"]`, and a single test config with `dir`
undefined, `env` `"node"`, and `project` `"tsconfig.json"`. -/
theorem getConfig_minimal_test_manifest (dir : String) :
    Jest.getConfig { test := some (OneOrMany.many [{}]) } dir =
      { debug := false, js := false, react := false, dir := dir,
        src := [("src")], dist := [("dist")], project := [("tsconfig.json")],
        test := [{ name := none, dir := none, env := ("node"),
                   project := ("tsconfig.json") }] } := rfl

/-- C5: when the lint step of `check` (the `lint --check` invocation) fails,
the composite propagates that failure, its spawn trace is exactly the lint
step's trace, and every spawn in it is the ESLint CLI — the formatter and
the per-`checkProject` type-checker are never invoked. -/
theorem check_aborts_on_lint_failure (orc : Oracle) (config : Vitest.Config) (e : RunError)
    (h : (Vitest.lint orc { check := true } config).fst = Except.error e) :
    ((Vitest.check orc config).fst = Except.error e) ∧
    ((Vitest.check orc config).snd = (Vitest.lint orc { check := true } config).snd) ∧
    (∀ c ∈ (Vitest.check orc config).snd, c.path = Vitest.PATHS_eslint) := by
  have hres : Vitest.check orc config =
      (Except.error e, (Vitest.lint orc { check := true } config).snd) := by
    unfold Vitest.check
    rw [andThen_error _ _ e h]
  refine ⟨by rw [hres], by rw [hres], ?_⟩
  rw [hres]
  exact lint_spawns_eslint orc { check := true } config

/-- Witness for `check_aborts_on_lint_failure`: with every tool failing,
`check` reports the lint step's process error. -/
theorem check_aborts_on_lint_failure_witness :
    (Vitest.check (fun _ => false) {}).fst =
      Except.error (RunError.processError ("eslint")) :=
  (check_aborts_on_lint_failure (fun _ => false) {} (RunError.processError ("eslint")) rfl).1

/-- C6: without `--no-clean`, a configuration whose dist list and project
list are both empty makes `build` complete successfully with zero
subprocess spawns; and whenever the project list is empty the type-checker
is never spawned, `--no-clean` or not. -/
theorem build_no_spawns_when_disabled (orc : Oracle) (config : Vitest.Config) :
    (config.dist = [] → config.project = [] →
      Vitest.build orc false config = (Except.ok (), [])) ∧
    (∀ noClean : Bool, config.project = [] →
      ∀ c ∈ (Vitest.build orc noClean config).snd, c.path ≠ Vitest.PATHS_typescript) := by
  constructor
  · intro h1 h2
    simp [Vitest.build, h1, h2, andThen]
  · intro noClean h2 c hc
    unfold Vitest.build at hc
    rw [h2] at hc
    simp only [List.map_nil, List.append_nil, List.isEmpty_nil, if_true] at hc
    rcases andThen_snd_sub _ _ c hc with hl | hr
    · rcases noClean with _ | _
      · by_cases hd : config.dist.isEmpty = true
        · simp [hd] at hl
        · simp only [Bool.not_eq_true] at hd
          simp only [Bool.false_eq_true, if_false, hd, runTool, List.mem_singleton] at hl
          subst hl
          show Vitest.PATHS_rimraf ≠ Vitest.PATHS_typescript
          decide
      · simp at hl
    · simp at hr

/-- Witness for `build_no_spawns_when_disabled`: with both lists empty,
`build` succeeds with an empty spawn trace. -/
theorem build_no_spawns_when_disabled_witness :
    Vitest.build (fun _ => true) false { dist := [], project := [] } = (Except.ok (), []) :=
  (build_no_spawns_when_disabled (fun _ => true) { dist := [], project := [] }).1 rfl rfl

/-- C7 (amended): for a non-empty candidate list, `getEslintPaths` with
filtering disabled returns the candidates unchanged.  With filtering
enabled — stated for an absolute root dir and absolute candidates, because
the code resolves a relative candidate against the ambient process cwd
rather than the configuration, and for candidates whose resolved component
sequences are traversal-free, because a literal component beginning with
`..` defeats the code's `relative(...).startsWith("..")` test — it retains
exactly the candidates whose resolved component sequence extends (is equal
to or nested under) that of some source directory resolved against the
root dir.  (An empty candidate list instead selects the derived globs, and
a nested candidate with a component such as `..w` is dropped; both
failures of the original claim are exhibited in
`getEslintPaths_counterexamples`.) -/
theorem getEslintPaths_nonempty_spec (paths : List String) (config : Vitest.Config)
    (hne : paths ≠ []) :
    (Vitest.getEslintPaths paths false config = paths) ∧
    ((∀ p ∈ paths, strStartsWith p ("/") = true ∧ (absComps p).all noTraversalComp = true) →
      strStartsWith config.dir ("/") = true →
      Vitest.getEslintPaths paths true config =
        paths.filter (fun p =>
          config.src.any (fun x =>
            startsWithList (resolveComps config.dir x) (absComps p)))) := by
  have hempty : paths.isEmpty = false := by
    rw [List.isEmpty_eq_false]
    exact hne
  constructor
  · simp [Vitest.getEslintPaths, hempty]
  · intro hp _
    simp only [Vitest.getEslintPaths, hempty, Bool.false_eq_true, if_false, if_true]
    apply List.filter_congr
    intro p hpmem
    have hcomps : ∀ c ∈ absComps p, noTraversalComp c = true := by
      have hall := (hp p hpmem).2
      rw [List.all_eq_true] at hall
      exact hall
    have hpt : ∀ s : List String, (!(relStartsDotDot s (absComps p)))
        = startsWithList s (absComps p) := by
      intro s
      rw [relStartsDotDot_eq s (absComps p) hcomps, Bool.not_not]
    have hany : ∀ srcs : List String,
        ((srcs.map (fun x => resolveComps config.dir x)).any
            (fun src => !(relStartsDotDot src (absComps p))))
          = srcs.any (fun x => startsWithList (resolveComps config.dir x) (absComps p)) := by
      intro srcs
      induction srcs with
      | nil => rfl
      | cons y ys ih =>
        simp only [List.map_cons, List.any_cons]
        rw [hpt (resolveComps config.dir y), ih]
    exact hany config.src

/-- Witness for `getEslintPaths_nonempty_spec`: with source dir `src`
resolved against root `/p`, the candidate `/p/src/x.ts` is retained and
`/p/lib/x.ts` is dropped when filtering is enabled; both are returned
unchanged when filtering is disabled. -/
theorem getEslintPaths_nonempty_spec_witness :
    (Vitest.getEslintPaths [("/p/src/x.ts"), ("/p/lib/x.ts")] true
        { dir := ("/p"), src := [("src")] } = [("/p/src/x.ts")]) ∧
    (Vitest.getEslintPaths [("/p/src/x.ts"), ("/p/lib/x.ts")] false
        { dir := ("/p"), src := [("src")] } = [("/p/src/x.ts"), ("/p/lib/x.ts")]) := by
  have h := getEslintPaths_nonempty_spec [("/p/src/x.ts"), ("/p/lib/x.ts")]
      { dir := ("/p"), src := [("src")] } (by decide)
  constructor
  · rw [h.2 (by decide) (by decide)]
    decide
  · exact h.1

/-- C7 (counterexamples): two failures of the claim as stated.  On an empty
candidate list with filtering disabled, the result is the derived globs
over the source dirs, not the (empty) candidate list unchanged.  And with
filtering enabled, the candidate `/p/src/..w/x.ts` — whose resolved
component sequence extends that of the resolved source dir `/p/src`, so it
is equal to or nested under it — is dropped anyway, because the computed
relative path `..w/x.ts` begins with the two characters of the
parent-traversal token. -/
theorem getEslintPaths_counterexamples :
    (Vitest.getEslintPaths [] false { dir := ("/p"), src := [("src")] } ≠ []) ∧
    (startsWithList (resolveComps ("/p") ("src")) (absComps ("/p/src/..w/x.ts")) = true) ∧
    (Vitest.getEslintPaths [("/p/src/..w/x.ts")] true { dir := ("/p"), src := [("src")] }
      = []) := by
  refine ⟨by decide, by decide, by decide⟩

/-- C8: every command name that is not an own key of the `scripts` registry
— including inherited object-member names such as `hasOwnProperty` — makes
`main` fail with the `TypeError` naming the attempted command, before
`getConfig` is reached (the boolean component records whether configuration
loading happened). -/
theorem main_unknown_command (command : String) (flags : List String)
    (h : (Jest.scripts.map Prod.fst).contains command = false) :
    Jest.main (command :: flags) =
      (Except.error (RunError.typeError (("Script does not exist: ") ++ command)), false) := by
  have hget : Jest.get Jest.scripts command = none := by
    unfold Jest.get
    rw [h]
    rfl
  simp only [Jest.main]
  rw [hget]

/-- Witness for `main_unknown_command`: dispatching `hasOwnProperty` fails
with the `TypeError` and no configuration load. -/
theorem main_unknown_command_witness :
    Jest.main [("hasOwnProperty")] =
      (Except.error (RunError.typeError
        (("Script does not exist: ") ++ ("hasOwnProperty"))), false) :=
  main_unknown_command ("hasOwnProperty") [] (by decide)

/-- C9: for every language-variant combination the derived extension list
is `ts`, then `js` iff untyped scripts are enabled, then `tsx` iff
component syntax is enabled, then `jsx` iff both are; the glob renders as
`*.ext` for a single extension and as a brace glob preserving that order
otherwise. -/
theorem extensionsFromConfig_eslintGlob_spec (c : Jest.Config) :
    (Jest.extensionsFromConfig c =
      (match c.js, c.react with
       | false, false => [("ts")]
       | true, false => [("ts"), ("js")]
       | false, true => [("ts"), ("tsx")]
       | true, true => [("ts"), ("js"), ("tsx"), ("jsx")])) ∧
    (Jest.eslintGlob c =
      (match c.js, c.react with
       | false, false => ("*.ts")
       | true, false => ("*.\x7bts,js\x7d")
       | false, true => ("*.\x7bts,tsx\x7d")
       | true, true => ("*.\x7bts,js,tsx,jsx\x7d"))) := by
  rcases c with ⟨debug, js, react, dir, src, dist, project, test⟩
  cases js <;> cases react <;> exact ⟨rfl, rfl⟩

/-- C10: the build-info companion path only rewrites a trailing `.json`
suffix, so a build-project entry not ending in `.json` is its own
companion, and `build`'s clean step passes the entry itself in the deletion
tool's argument list (the first spawn is the `rimraf` call over the dist
dirs and the companion paths). -/
theorem build_clean_passes_non_json_project (orc : Oracle) (config : Vitest.Config) (x : String)
    (hx : x ∈ config.project) (hj : strEndsWith x (".json") = false) :
    (Vitest.tsbuildinfoPath x = x) ∧
    ((Vitest.build orc false config).snd.head? =
      some { path := Vitest.PATHS_rimraf,
             argv := config.dist ++ config.project.map Vitest.tsbuildinfoPath,
             name := ("rimraf") }) ∧
    (x ∈ config.dist ++ config.project.map Vitest.tsbuildinfoPath) := by
  have htsb : Vitest.tsbuildinfoPath x = x := by
    simp [Vitest.tsbuildinfoPath, hj]
  have hne : (config.dist ++ config.project.map Vitest.tsbuildinfoPath).isEmpty = false := by
    rw [List.isEmpty_eq_false]
    intro h0
    rcases List.append_eq_nil.mp h0 with ⟨_, h2⟩
    rw [List.map_eq_nil_iff] at h2
    exact (List.ne_nil_of_mem hx) h2
  refine ⟨htsb, ?_, ?_⟩
  · unfold Vitest.build
    simp only [Bool.false_eq_true, if_false, hne]
    exact andThen_runTool_head orc _ _ _ _
  · refine List.mem_append_right _ ?_
    exact List.mem_map.mpr ⟨x, hx, htsb⟩

/-- Witness for `build_clean_passes_non_json_project`: a project entry
`tsconfig.base` (no `.json` suffix) is its own companion and appears
verbatim in the `rimraf` argument list of `build`'s first spawn. -/
theorem build_clean_passes_non_json_project_witness :
    (Vitest.tsbuildinfoPath ("tsconfig.base") = ("tsconfig.base")) ∧
    ((Vitest.build (fun _ => true) false
        { dist := [], project := [("tsconfig.base")] }).snd.head? =
      some { path := Vitest.PATHS_rimraf, argv := [("tsconfig.base")],
             name := ("rimraf") }) := by
  have h := build_clean_passes_non_json_project (fun _ => true)
      { dist := [], project := [("tsconfig.base")] } ("tsconfig.base") (by decide) (by decide)
  refine ⟨h.1, ?_⟩
  rw [h.2.1]
  decide
